import Mathlib

/-!
Verification of the chunked-fetch / pagination / retry / sanitize pipeline
core of the wb-analytics repository, as a shallow embedding in Lean 4.

Each definition mirrors one Python function of the repository:
  * `WBConn.chunked`           — `WBConnector._chunked` (src/connectors/wb.py)
  * `Sanitize.sanitize_records` — `sanitize_records` (src/etl/main.py)
  * `WBConn.fetch_fullstats_chunked`, `WBConn.fetch_normquery_stats_chunked`
                               — the two chunked-key fetch loops (src/connectors/wb.py)
  * `WBConn.fetchPagesAux` / `WBConn.fetch_search_report_all`
                               — the offset-cursor pagination loop of
                                 `WBConnector.fetch_search_report_all`
  * `Ozon.pollReport`          — the poll loop of
                                 `OzonPerformanceConnector.fetch_campaign_product_stats`
                                 (src/connectors/ozon_performance.py)
  * `Retry.retry_on_exception` — the wrapper built by `retry_on_exception`
                                 (src/utils/retry.py)
  * `Etl.runDayLoop`           — the per-day loop shared by
                                 `run_sales_funnel_pipeline` and `run_spp_pipeline`
                                 (src/etl/main.py)

Python exceptions are modelled as a class tag plus a message string; side
effects (log lines, sleeps) are made explicit as returned data; HTTP calls
are abstracted as oracle functions passed to the loops, or as the request
value the code would put on the wire.
-/

/-- Exception classes that appear in the modelled code paths.
`httpStatusError` stands for `httpx.HTTPStatusError`, a subclass of
`httpx.HTTPError` (`httpError`). -/
inductive ExcTy where
  | wbConnectorError
  | ozonConnectorError
  | httpError
  | httpStatusError
  | otherError
deriving DecidableEq, Repr

/-- A raised Python exception: its class and its message. -/
structure Exc where
  ty : ExcTy
  msg : String
deriving DecidableEq, Repr

/-- `isinstance(e, httpx.HTTPError)`: `HTTPStatusError` is a subclass. -/
def Exc.isHttpError (e : Exc) : Bool :=
  e.ty = ExcTy.httpError || e.ty = ExcTy.httpStatusError

instance {ε α : Type} [DecidableEq ε] [DecidableEq α] : DecidableEq (Except ε α)
  | .ok a, .ok b =>
    if h : a = b then .isTrue (by rw [h]) else .isFalse (by intro hh; cases hh; exact h rfl)
  | .ok _, .error _ => .isFalse (by intro hh; cases hh)
  | .error _, .ok _ => .isFalse (by intro hh; cases hh)
  | .error e, .error f =>
    if h : e = f then .isTrue (by rw [h]) else .isFalse (by intro hh; cases hh; exact h rfl)

namespace WBConn

/-- Python `range(start, stop, step)` for a positive `step`: the values
`start, start+step, ...` strictly below `stop`; their count is
`ceil((stop-start)/step)` (natural subtraction makes this `0` when
`stop ≤ start`). -/
def pyRange (start stop step : Nat) : List Nat :=
  (List.range ((stop - start + step - 1) / step)).map (fun i => start + i * step)

/-- `WBConnector._chunked(seq, size)`:
`[seq[i : i + size] for i in range(0, len(seq), size)]`.
Python's slice `seq[i : i + size]` is `(seq.drop i).take size`.
`fetch_normquery_stats_chunked` builds its chunks with the same inline
comprehension, so this definition also models that line. -/
def chunked (seq : List α) (size : Nat) : List (List α) :=
  (pyRange 0 seq.length size).map (fun i => (seq.drop i).take size)

/-- The `for idx, chunk in enumerate(chunks, start=1)` body of
`WBConnector.fetch_fullstats_chunked`: each chunk is fetched via the
per-chunk HTTP call `call`; an `httpx.HTTPError` is logged
(`log_error`) and re-raised, aborting the loop; any other raised
exception propagates unlogged.  Returns either the raised exception or
the accumulated results. -/
def fullstatsChunksGo (call : List Int → Except Exc (List α)) :
    List (List Int) → Except Exc (List α)
  | [] => .ok []
  | c :: cs =>
    match call c with
    | .error e => .error e
    | .ok recs =>
      match fullstatsChunksGo call cs with
      | .error e => .error e
      | .ok rest => .ok (recs ++ rest)

/-- `WBConnector.fetch_fullstats_chunked`: empty id list short-circuits to
`[]` without any call; otherwise the ids are chunked and fetched in order,
any chunk failure propagating to the caller. -/
def fetch_fullstats_chunked (call : List Int → Except Exc (List α))
    (advert_ids : List Int) (chunk_size : Nat) : Except Exc (List α) :=
  if advert_ids = [] then .ok []
  else fullstatsChunksGo call (chunked advert_ids chunk_size)

/-- The `log_error` text of the `except httpx.HTTPStatusError` /
`except Exception` handlers inside
`WBConnector.fetch_normquery_stats_chunked`. -/
def nqChunkLogMsg (idx : Nat) (e : Exc) : String :=
  if e.ty = ExcTy.httpStatusError then
    "Failed to fetch normquery stats chunk " ++ (toString idx ++ (": " ++ e.msg))
  else
    "Unexpected error in normquery stats chunk " ++ (toString idx ++ (": " ++ e.msg))

/-- The chunk loop of `WBConnector.fetch_normquery_stats_chunked`: each
chunk is fetched via `call`; a raised `httpx.HTTPStatusError` or any
other exception is caught, logged, and the loop continues with the next
chunk.  Returns the accumulated stats of the successful chunks together
with the error-log lines.  `idx` is the 1-based chunk counter of
`enumerate(chunks, start=1)`. -/
def normqueryChunksGo (call : List (Int × Int) → Except Exc (List α))
    (idx : Nat) : List (List (Int × Int)) → List α × List String
  | [] => ([], [])
  | c :: cs =>
    let rest := normqueryChunksGo call (idx + 1) cs
    match call c with
    | .error e => (rest.1, nqChunkLogMsg idx e :: rest.2)
    | .ok recs => (recs ++ rest.1, rest.2)

/-- `WBConnector.fetch_normquery_stats_chunked`: empty item list
short-circuits to `[]`; otherwise the items are chunked and fetched in
order, chunk failures being logged and swallowed. -/
def fetch_normquery_stats_chunked (call : List (Int × Int) → Except Exc (List α))
    (items : List (Int × Int)) (chunk_size : Nat) : List α × List String :=
  if items = [] then ([], [])
  else normqueryChunksGo call 1 (chunked items chunk_size)

/-- The `while True` offset-cursor loop of
`WBConnector.fetch_search_report_all`, over an abstract page source
(`source offset` is the `groups` list the API returns for that offset):
an empty page ends the loop before extending, a short page
(`len(groups) < limit`) ends it after extending, a full page advances
`offset` by `limit`.  `fuel` bounds the number of iterations (the Python
loop has no such bound); the returned pair is the accumulated groups and
the list of offsets actually requested. -/
def fetchPagesAux (source : Nat → List α) (limit : Nat) :
    Nat → Nat → Option (List α × List Nat)
  | 0, _ => none
  | fuel + 1, offset =>
    let groups := source offset
    if groups.isEmpty then some ([], [offset])
    else if groups.length < limit then some (groups, [offset])
    else
      match fetchPagesAux source limit fuel (offset + limit) with
      | none => none
      | some (rest, offs) => some (groups ++ rest, offset :: offs)

/-- `WBConnector.fetch_search_report_all`: the offset-cursor loop started
at `offset = 0` with the hard-coded `limit = 1000`. -/
def fetch_search_report_all (source : Nat → List α) (fuel : Nat) :
    Option (List α × List Nat) :=
  fetchPagesAux source 1000 fuel 0

/-- The request `WBConnector.fetch_product_search_texts` would POST to the
search-texts endpoint (the payload fields built from the arguments). -/
structure SearchTextsRequest where
  periodStart : String
  periodEnd : String
  nmIds : List Int
  topOrderBy : String
  orderByField : String
  orderByMode : String
  limit : Int
deriving DecidableEq, Repr

/-- `WBConnector.fetch_product_search_texts`, modelled up to the network
boundary: the guard `if len(nm_ids) > 50` raises `WBConnectorError`
before any HTTP client is constructed; otherwise the function issues one
POST whose payload is returned here as a `SearchTextsRequest`. -/
def fetch_product_search_texts (nm_ids : List Int) (start endDate : String)
    (topOrderBy orderByField orderByMode : String) (limit : Int) :
    Except Exc SearchTextsRequest :=
  if nm_ids.length > 50 then
    .error ⟨.wbConnectorError, "fetch_product_search_texts: max 50 nmIds per request"⟩
  else
    .ok ⟨start, endDate, nm_ids, topOrderBy, orderByField, orderByMode, limit⟩

/-- The request `WBConnector.fetch_normquery_stats` would POST to the
normquery endpoint. -/
structure NormqueryRequest where
  dateFrom : String
  dateTo : String
  items : List (Int × Int)
deriving DecidableEq, Repr

/-- `WBConnector.fetch_normquery_stats`, modelled up to the network
boundary: an empty item list returns `[]` (here `none`) without any call;
`if len(items) > 100` raises `WBConnectorError` before any HTTP client is
constructed; otherwise one POST is issued whose payload is returned as a
`NormqueryRequest`. -/
def fetch_normquery_stats (items : List (Int × Int)) (dateStart dateEnd : String) :
    Except Exc (Option NormqueryRequest) :=
  if items = [] then .ok none
  else if items.length > 100 then
    .error ⟨.wbConnectorError, "fetch_normquery_stats: max 100 items per request"⟩
  else .ok (some ⟨dateStart, dateEnd, items⟩)

end WBConn

namespace Sanitize

/-- Classification of a Python / numpy float as far as
`math.isnan` / `math.isinf` observe it. -/
inductive FloatClass where
  | finite (q : ℚ)
  | nan
  | posInf
  | negInf
deriving DecidableEq, Repr

/-- The scalar values a flat record can hold: native `None`, `int`,
`float`, `bool`, `str`, numpy integer / floating scalars, and the pandas
missing sentinels (`pd.NA`, `pd.NaT`). -/
inductive Scalar where
  | pyNone
  | pyInt (n : Int)
  | pyFloat (c : FloatClass)
  | pyBool (b : Bool)
  | pyStr (s : String)
  | npInt (n : Int)
  | npFloat (c : FloatClass)
  | pdNA
deriving DecidableEq, Repr

/-- `isinstance(val, (np.integer, np.floating))` followed by `.item()`:
numpy scalars unwrap to the corresponding native value, everything else
is left alone. -/
def npUnwrap : Scalar → Scalar
  | .npInt n => .pyInt n
  | .npFloat c => .pyFloat c
  | v => v

/-- `pd.isna(val)` on a scalar: true for `None`, float `NaN`, and the
pandas sentinels; false for infinities and ordinary values. -/
def pdIsna : Scalar → Bool
  | .pyNone => true
  | .pyFloat .nan => true
  | .npFloat .nan => true
  | .pdNA => true
  | _ => false

/-- The inner `sanitize_value` of `sanitize_records` (src/etl/main.py):
`None` is returned as-is; numpy scalars are unwrapped with `.item()`;
a float that is NaN or ±inf becomes `None`; a value `pd.isna` deems
missing becomes `None`; everything else is returned unchanged. -/
def sanitize_value (val : Scalar) : Scalar :=
  if val = .pyNone then .pyNone
  else
    let v := npUnwrap val
    if v = .pyFloat .nan ∨ v = .pyFloat .posInf ∨ v = .pyFloat .negInf then .pyNone
    else if pdIsna v then .pyNone else v

/-- `sanitize_records`: applies `sanitize_value` to every value of every
record (a record being a dict, modelled as an association list). -/
def sanitize_records (records : List (List (String × Scalar))) :
    List (List (String × Scalar)) :=
  records.map (fun record => record.map (fun kv => (kv.1, sanitize_value kv.2)))

/-- A value that is already in sanitized (transport-clean) form: `None`,
a native `int`, a finite native `float`, a `bool`, or a `str`. -/
def isClean : Scalar → Bool
  | .pyNone => true
  | .pyInt _ => true
  | .pyFloat (.finite _) => true
  | .pyBool _ => true
  | .pyStr _ => true
  | _ => false

end Sanitize

namespace Ozon

/-- The exception raised by
`OzonPerformanceConnector.fetch_campaign_product_stats` when the polling
deadline is exceeded:
`OzonConnectorError(f"Report ... timeout after ...s")`. -/
def reportTimeoutError (uuid : String) (maxWait : Nat) : Exc :=
  ⟨.ozonConnectorError, "Report " ++ (uuid ++ (" timeout after " ++ (toString maxWait ++ "s")))⟩

/-- The exception raised by the same poll loop when the remote job
reports a terminal failure:
`OzonConnectorError(f"Report ... failed with state: ...")`. -/
def reportFailedError (uuid state : String) : Exc :=
  ⟨.ozonConnectorError, "Report " ++ (uuid ++ (" failed with state: " ++ state))⟩

/-- The `while True` poll loop of
`OzonPerformanceConnector.fetch_campaign_product_stats`, step 2.
`status n` is the `state` string the n-th status call returns; with
instantaneous calls the n-th top-of-loop deadline check happens at
elapsed time `n * pollInterval` seconds (n sleeps of `poll_interval`
have occurred).  The loop raises the timeout error when
`elapsed > max_wait_seconds`, breaks on `"OK"`, raises the failure error
on `"ERROR"`/`"FAILED"`, and otherwise sleeps and polls again.  `fuel`
bounds the iterations; the result also carries the index `n` at which
the loop ended. -/
def pollReportAux (status : Nat → String) (maxWait pollInterval : Nat)
    (uuid : String) : Nat → Nat → Option (Except Exc Unit × Nat)
  | 0, _ => none
  | fuel + 1, n =>
    if n * pollInterval > maxWait then
      some (.error (reportTimeoutError uuid maxWait), n)
    else
      let st := status n
      if st = "OK" then some (.ok (), n)
      else if st = "ERROR" ∨ st = "FAILED" then
        some (.error (reportFailedError uuid st), n)
      else pollReportAux status maxWait pollInterval uuid fuel (n + 1)

/-- The poll loop started at its first iteration. -/
def pollReport (status : Nat → String) (maxWait pollInterval : Nat)
    (uuid : String) (fuel : Nat) : Option (Except Exc Unit × Nat) :=
  pollReportAux status maxWait pollInterval uuid fuel 0

end Ozon

namespace Retry

/-- How a call through the `retry_on_exception` wrapper ends: the wrapped
function's return value, a re-raised / propagated exception, or the
implicit `None` the wrapper returns when the `while` loop never runs. -/
inductive RetryOutcome (α : Type) where
  | success (a : α)
  | raised (e : Exc)
  | returnedNone
deriving DecidableEq, Repr

/-- Observable trace of one call through the wrapper: the outcome, the
delays slept (one `time.sleep(current_delay)` per logged retry warning,
in order), and whether the final-failure `logger.error` line was
emitted. -/
structure RetryTrace (α : Type) where
  outcome : RetryOutcome α
  sleeps : List ℚ
  loggedFailure : Bool
deriving DecidableEq, Repr

/-- The `while attempt < max_retries` loop of the wrapper built by
`retry_on_exception` (src/utils/retry.py).  `call j` is what the wrapped
function does on its (0-based) j-th invocation; `declared e` is
`isinstance(e, exception_types)`.  A declared exception increments
`attempt`; if `attempt >= max_retries` the error is logged and re-raised,
otherwise a warning is logged, `current_delay` is slept, and the delay is
multiplied by `backoff_factor`.  An undeclared exception propagates
uncaught.  Falling out of the loop returns Python's implicit `None`.
The loop is driven by the number of attempts still allowed,
`remaining = max_retries - attempt` (an integer kept non-negative, so the
loop condition `attempt < max_retries` is `remaining > 0`, and the
post-increment check `attempt >= max_retries` is `remaining = 1`, i.e.
the pattern variable below being `0`). -/
def retryAux (declared : Exc → Bool) (backoffFactor : ℚ)
    (call : Nat → Except Exc α) : Nat → Nat → ℚ → RetryTrace α
  | 0, _, _ => ⟨.returnedNone, [], false⟩
  | remaining + 1, attempt, curDelay =>
    match call attempt with
    | .ok a => ⟨.success a, [], false⟩
    | .error e =>
      if declared e then
        if remaining = 0 then ⟨.raised e, [], true⟩
        else
          let t := retryAux declared backoffFactor call remaining (attempt + 1)
            (curDelay * backoffFactor)
          ⟨t.outcome, curDelay :: t.sleeps, t.loggedFailure⟩
      else ⟨.raised e, [], false⟩

/-- The wrapper entry: `attempt = 0`, `current_delay = delay_seconds`,
so `remaining = max_retries` (clamped at zero: a non-positive
`max_retries` means the `while` loop never runs). -/
def retry_on_exception (declared : Exc → Bool) (maxRetries : Int)
    (delaySeconds backoffFactor : ℚ) (call : Nat → Except Exc α) : RetryTrace α :=
  retryAux declared backoffFactor call maxRetries.toNat 0 delaySeconds

end Retry

namespace Etl

/-- Observable result of one per-day pipeline loop: which days were
upserted with which records (in loop order), which days logged a
`Failed to process` error, and the `total_records` counter. -/
structure DayLog (α : Type) where
  upserts : List (Nat × List α)
  errorDays : List Nat
  total : Nat
deriving DecidableEq, Repr

/-- The `while current_date <= date_to` loop shared by
`run_sales_funnel_pipeline` and `run_spp_pipeline` (src/etl/main.py).
Days are numbered; `dayResult d` is what the day's fetch+transform
produces — `.error` when any step of the iteration raises, `.ok recs`
otherwise.  A raised day is caught by the per-iteration `except`, logged
with its date, and the loop continues; a day with an empty frame logs
"no data" and upserts nothing; otherwise the day's records are upserted
and counted.
The loop advances `current_date` by one day until it passes `date_to`;
`fuel` is the day count still ahead (`stop + 1 - cur` at entry), making
the recursion structural while keeping the `cur ≤ stop` guard of the
source's `while` condition. -/
def runDayLoop (dayResult : Nat → Except Exc (List α)) (stop : Nat) :
    Nat → Nat → DayLog α
  | 0, _ => ⟨[], [], 0⟩
  | fuel + 1, cur =>
    if cur ≤ stop then
      let rest := runDayLoop dayResult stop fuel (cur + 1)
      match dayResult cur with
      | .ok recs =>
        if recs.isEmpty then ⟨rest.upserts, rest.errorDays, rest.total⟩
        else ⟨(cur, recs) :: rest.upserts, rest.errorDays, recs.length + rest.total⟩
      | .error _ => ⟨rest.upserts, cur :: rest.errorDays, rest.total⟩
    else ⟨[], [], 0⟩

/-- `run_sales_funnel_pipeline`: the per-day loop over
`[date_from, date_to]` with `dayResult d` the records that
`transform_sales_funnel(fetch_sales_funnel(d, d))` produces for day `d`,
upserted on `nmid,periodstart,periodend`. -/
def run_sales_funnel_pipeline (dayResult : Nat → Except Exc (List α))
    (dateFrom dateTo : Nat) : DayLog α :=
  runDayLoop dayResult dateTo (dateTo + 1 - dateFrom) dateFrom

/-- `run_spp_pipeline`: the same per-day loop with
`dayResult d = transform_spp_snapshot(fetch_orders(d))`, upserted on
`date,nmid`. -/
def run_spp_pipeline (dayResult : Nat → Except Exc (List α))
    (dateFrom dateTo : Nat) : DayLog α :=
  runDayLoop dayResult dateTo (dateTo + 1 - dateFrom) dateFrom

/-- Whether an iteration result is an uncaught exception. -/
def isErr : Except Exc (List α) → Bool
  | .error _ => true
  | .ok _ => false

end Etl

namespace Fixtures

/-- A per-chunk normquery call that succeeds on the chunk `[(1, 11)]` and
fails with an HTTP 500 status error on every other chunk. -/
def nqCallCE : List (Int × Int) → Except Exc (List Nat) :=
  fun chunk =>
    if chunk = [(1, 11)] then .ok [101]
    else .error ⟨.httpStatusError, "500 Server Error"⟩

/-- A per-chunk fullstats call that fails with an `httpx.HTTPError` on
the chunk `[2]` and succeeds (with one record) on every other chunk. -/
def fsCallCE : List Int → Except Exc (List Nat) :=
  fun chunk =>
    if chunk = [2] then .error ⟨.httpError, "boom"⟩ else .ok [7]

/-- A report-status oracle that never reaches a terminal state. -/
def pendingStatus : Nat → String := fun _ => "PENDING"

/-- A report-status oracle that reports failure immediately. -/
def errorStatus : Nat → String := fun _ => "ERROR"

/-- A page source with pages of sizes 2, 2, 1 at offsets 0, 2, 4. -/
def pageSourceW : Nat → List Nat :=
  fun o =>
    if o = 0 then [1, 2]
    else if o = 2 then [3, 4]
    else if o = 4 then [5]
    else []

/-- A per-day fetch+transform oracle that raises on day 3 and returns one
record on every other day. -/
def dayFetchCE : Nat → Except Exc (List Nat) :=
  fun d => if d = 3 then .error ⟨.httpError, "fetch failed"⟩ else .ok [d]

/-- A wrapped call that raises a transient HTTP error on its first two
attempts and succeeds on the third. -/
def retryCallCE : Nat → Except Exc Nat :=
  fun j => if j < 2 then .error ⟨.httpError, "conn reset"⟩ else .ok 42

end Fixtures

/-! ## Chunk partition (C1) -/

open WBConn in
theorem WBConn.chunked_nil (size : Nat) : chunked ([] : List α) size = [] := by
  unfold chunked pyRange
  have h : (([] : List α).length - 0 + size - 1) / size = 0 := by
    rcases Nat.eq_zero_or_pos size with h0 | hpos
    · subst h0
      simp
    · exact Nat.div_eq_of_lt (by simp; omega)
  rw [h]
  rfl

/-- The chunk count of a nonempty list is one more than that of the list
with its first `size` elements removed. -/
theorem WBConn.chunk_count_succ (n size : Nat) (hsize : 0 < size) (hn : 0 < n) :
    (n + size - 1) / size = (n - size + size - 1) / size + 1 := by
  rcases le_or_lt n size with hle | hlt
  · have h1 : n - size = 0 := by omega
    rw [h1]
    have h2 : (0 + size - 1) / size = 0 := Nat.div_eq_of_lt (by omega)
    rw [h2]
    exact Nat.div_eq_of_lt_le (by omega) (by omega)
  · have h1 : n + size - 1 = (n - size + size - 1) + size := by omega
    rw [h1, Nat.add_div_right _ hsize]

/-- Unfolding rule of `chunked` on a nonempty list and positive size:
the first chunk is the `size`-prefix, the rest chunks the `size`-suffix. -/
theorem WBConn.chunked_cons (s : List α) (size : Nat) (hsize : 0 < size) (hs : s ≠ []) :
    chunked s size = s.take size :: chunked (s.drop size) size := by
  have hn : 0 < s.length := List.length_pos.mpr hs
  unfold chunked pyRange
  have hcount : (s.length - 0 + size - 1) / size
      = ((s.drop size).length - 0 + size - 1) / size + 1 := by
    rw [List.length_drop]
    simpa using chunk_count_succ s.length size hsize hn
  rw [hcount, List.range_succ_eq_map]
  simp only [List.map_cons, List.map_map, Nat.zero_add, Nat.zero_mul, List.drop_zero]
  congr 1
  apply List.map_congr_left
  intro i _
  simp only [Function.comp_apply]
  rw [List.drop_drop]
  rw [Nat.succ_mul, Nat.add_comm (i * size) size]

/-- The three chunk-partition invariants, with an explicit length bound as
induction fuel: count is `ceil(N/C)`, every chunk has size at most `C`, and
the chunks concatenate back to the input in order. -/
theorem WBConn.chunked_invariants (size : Nat) (hsize : 0 < size) :
    ∀ (fuel : Nat) (seq : List α), seq.length ≤ fuel →
      (chunked seq size).length = (seq.length + size - 1) / size ∧
      (∀ g ∈ chunked seq size, g.length ≤ size) ∧
      (chunked seq size).flatten = seq := by
  intro fuel
  induction fuel with
  | zero =>
    intro seq hlen
    have : seq = [] := List.eq_nil_of_length_eq_zero (by omega)
    subst this
    refine ⟨?_, ?_, ?_⟩
    · rw [chunked_nil]
      simp only [List.length_nil, Nat.zero_add]
      exact (Nat.div_eq_of_lt (by omega)).symm
    · intro g hg
      simp [chunked_nil] at hg
    · simp [chunked_nil]
  | succ m ih =>
    intro seq hlen
    rcases eq_or_ne seq [] with hnil | hne
    · subst hnil
      refine ⟨?_, ?_, ?_⟩
      · rw [chunked_nil]
        simp only [List.length_nil, Nat.zero_add]
        exact (Nat.div_eq_of_lt (by omega)).symm
      · intro g hg
        simp [chunked_nil] at hg
      · simp [chunked_nil]
    · have hn : 0 < seq.length := List.length_pos.mpr hne
      have hdrop : (seq.drop size).length ≤ m := by
        rw [List.length_drop]
        omega
      obtain ⟨ihc, ihb, ihj⟩ := ih (seq.drop size) hdrop
      rw [chunked_cons seq size hsize hne]
      refine ⟨?_, ?_, ?_⟩
      · simp only [List.length_cons, ihc, List.length_drop]
        exact (chunk_count_succ seq.length size hsize hn).symm
      · intro g hg
        rcases List.mem_cons.mp hg with h | h
        · subst h
          exact List.length_take_le size seq
        · exact ihb g h
      · simp only [List.flatten_cons, ihj, List.take_append_drop]

/-- C1: for every key list of length N and every chunk size C > 0, the
chunk-partition function `WBConnector._chunked` produces `ceil(N/C)`
groups (as naturals, `(N + C - 1) / C`), each of size at most C, whose
concatenation in order equals the original list — so the groups are
non-overlapping, their union is the input, and order is preserved. -/
theorem chunk_partition_correct (seq : List α) (C : Nat) (hC : 0 < C) :
    (WBConn.chunked seq C).length = (seq.length + C - 1) / C ∧
    (∀ g ∈ WBConn.chunked seq C, g.length ≤ C) ∧
    (WBConn.chunked seq C).flatten = seq :=
  WBConn.chunked_invariants C hC seq.length seq le_rfl

/-- Witness for C1 at a concrete input: 5 keys in chunks of 2. -/
theorem chunk_partition_correct_witness :
    (WBConn.chunked [10, 20, 30, 40, 50] 2).length = (5 + 2 - 1) / 2 ∧
    (∀ g ∈ WBConn.chunked [10, 20, 30, 40, 50] 2, g.length ≤ 2) ∧
    (WBConn.chunked [10, 20, 30, 40, 50] 2).flatten = [10, 20, 30, 40, 50] := by
  have h := chunk_partition_correct [10, 20, 30, 40, 50] 2 (by decide)
  simpa using h

/-! ## Sanitizer (C2) -/

/-- `sanitize_value` is a projection: applying it twice equals applying
it once (every value it can return is one of its fixed points). -/
theorem Sanitize.sanitize_value_idem (v : Sanitize.Scalar) :
    Sanitize.sanitize_value (Sanitize.sanitize_value v) = Sanitize.sanitize_value v := by
  cases v with
  | pyFloat c => cases c <;> rfl
  | npFloat c => cases c <;> rfl
  | _ => rfl

/-- Record-list idempotence follows pointwise from value idempotence. -/
theorem Sanitize.sanitize_records_idem (rs : List (List (String × Sanitize.Scalar))) :
    Sanitize.sanitize_records (Sanitize.sanitize_records rs) = Sanitize.sanitize_records rs := by
  unfold Sanitize.sanitize_records
  rw [List.map_map]
  apply List.map_congr_left
  intro record _
  simp only [Function.comp_apply, List.map_map]
  apply List.map_congr_left
  intro kv _
  simp only [Function.comp_apply]
  exact congrArg (fun x => (kv.1, x)) (Sanitize.sanitize_value_idem kv.2)

/-- An already-clean value is a fixed point of `sanitize_value`. -/
theorem Sanitize.sanitize_value_clean (v : Sanitize.Scalar)
    (hv : Sanitize.isClean v = true) : Sanitize.sanitize_value v = v := by
  cases v with
  | pyFloat c => cases c with
    | finite q => rfl
    | _ => simp [Sanitize.isClean] at hv
  | npInt n => simp [Sanitize.isClean] at hv
  | npFloat c => simp [Sanitize.isClean] at hv
  | pdNA => simp [Sanitize.isClean] at hv
  | _ => rfl

/-- C2: the sanitizer is idempotent and totalizing on non-transportable
numerics — `sanitize(sanitize(x)) == sanitize(x)` for every record list;
float NaN and ±infinity (native or numpy) map to `None`; numpy scalars
unwrap to native numbers; the pandas missing sentinel maps to `None`;
already-clean values are returned unchanged. -/
theorem sanitize_idempotent_total (rs : List (List (String × Sanitize.Scalar)))
    (v : Sanitize.Scalar) (n : Int) (q : ℚ) (hv : Sanitize.isClean v = true) :
    Sanitize.sanitize_records (Sanitize.sanitize_records rs) = Sanitize.sanitize_records rs ∧
    Sanitize.sanitize_value (.pyFloat .nan) = .pyNone ∧
    Sanitize.sanitize_value (.pyFloat .posInf) = .pyNone ∧
    Sanitize.sanitize_value (.pyFloat .negInf) = .pyNone ∧
    Sanitize.sanitize_value (.npFloat .nan) = .pyNone ∧
    Sanitize.sanitize_value (.npFloat .posInf) = .pyNone ∧
    Sanitize.sanitize_value (.npFloat .negInf) = .pyNone ∧
    Sanitize.sanitize_value (.npInt n) = .pyInt n ∧
    Sanitize.sanitize_value (.npFloat (.finite q)) = .pyFloat (.finite q) ∧
    Sanitize.sanitize_value .pdNA = .pyNone ∧
    Sanitize.sanitize_value v = v :=
  ⟨Sanitize.sanitize_records_idem rs, rfl, rfl, rfl, rfl, rfl, rfl, rfl, rfl, rfl,
   Sanitize.sanitize_value_clean v hv⟩

/-- Witness for C2 at a concrete record list containing NaN, infinity,
numpy scalars, a sentinel, and clean values. -/
theorem sanitize_idempotent_total_witness :
    Sanitize.sanitize_records (Sanitize.sanitize_records
      [[("a", .pyFloat .nan), ("b", .npInt 5)], [("c", .pyStr "ok"), ("d", .pdNA)]]) =
      Sanitize.sanitize_records
      [[("a", .pyFloat .nan), ("b", .npInt 5)], [("c", .pyStr "ok"), ("d", .pdNA)]] ∧
    Sanitize.sanitize_value (.pyFloat .nan) = .pyNone ∧
    Sanitize.sanitize_value (.pyFloat .posInf) = .pyNone ∧
    Sanitize.sanitize_value (.pyFloat .negInf) = .pyNone ∧
    Sanitize.sanitize_value (.npFloat .nan) = .pyNone ∧
    Sanitize.sanitize_value (.npFloat .posInf) = .pyNone ∧
    Sanitize.sanitize_value (.npFloat .negInf) = .pyNone ∧
    Sanitize.sanitize_value (.npInt 7) = .pyInt 7 ∧
    Sanitize.sanitize_value (.npFloat (.finite 2)) = .pyFloat (.finite 2) ∧
    Sanitize.sanitize_value .pdNA = .pyNone ∧
    Sanitize.sanitize_value (.pyInt 3) = .pyInt 3 :=
  sanitize_idempotent_total
    [[("a", .pyFloat .nan), ("b", .npInt 5)], [("c", .pyStr "ok"), ("d", .pdNA)]]
    (.pyInt 3) 7 2 rfl

/-! ## Chunked-fetch failure handling (C3) -/

/-- Unfolding of the normquery chunk loop on a failing head chunk. -/
theorem WBConn.normqueryChunksGo_cons_error
    (call : List (Int × Int) → Except Exc (List Nat)) (idx : Nat)
    (c : List (Int × Int)) (cs : List (List (Int × Int))) (e : Exc)
    (hcall : call c = .error e) :
    WBConn.normqueryChunksGo call idx (c :: cs) =
      ((WBConn.normqueryChunksGo call (idx + 1) cs).1,
       WBConn.nqChunkLogMsg idx e :: (WBConn.normqueryChunksGo call (idx + 1) cs).2) := by
  simp [WBConn.normqueryChunksGo, hcall]

/-- Unfolding of the normquery chunk loop on a successful head chunk. -/
theorem WBConn.normqueryChunksGo_cons_ok
    (call : List (Int × Int) → Except Exc (List Nat)) (idx : Nat)
    (c : List (Int × Int)) (cs : List (List (Int × Int))) (recs : List Nat)
    (hcall : call c = .ok recs) :
    WBConn.normqueryChunksGo call idx (c :: cs) =
      (recs ++ (WBConn.normqueryChunksGo call (idx + 1) cs).1,
       (WBConn.normqueryChunksGo call (idx + 1) cs).2) := by
  simp [WBConn.normqueryChunksGo, hcall]

/-- In the fullstats chunk loop, the first failing chunk's exception
propagates: no result list is returned. -/
theorem WBConn.fullstatsChunksGo_error (call : List Int → Except Exc (List Nat))
    (pre : List (List Int)) (c : List Int) (post : List (List Int)) (e : Exc)
    (hpre : ∀ c2 ∈ pre, ∃ r, call c2 = .ok r) (hc : call c = .error e) :
    WBConn.fullstatsChunksGo call (pre ++ c :: post) = .error e := by
  induction pre with
  | nil =>
    simp only [List.nil_append]
    unfold WBConn.fullstatsChunksGo
    rw [hc]
  | cons p ps ih =>
    obtain ⟨r, hr⟩ := hpre p (List.mem_cons_self p ps)
    have ih2 := ih (fun c2 h => hpre c2 (List.mem_cons_of_mem p h))
    simp only [List.cons_append]
    unfold WBConn.fullstatsChunksGo
    rw [hr, ih2]

/-- Characterization of the normquery chunk loop: it totalizes — the
result accumulates exactly the successful chunks' records, and every
failing chunk leaves its error-log line (with its 1-based index). -/
theorem WBConn.normqueryChunksGo_spec (call : List (Int × Int) → Except Exc (List Nat)) :
    ∀ (chunks : List (List (Int × Int))) (idx : Nat),
      (WBConn.normqueryChunksGo call idx chunks).1 =
        (chunks.map (fun ch => match call ch with | .ok r => r | .error _ => [])).flatten ∧
      ∀ i (hi : i < chunks.length) e,
        call (chunks.get ⟨i, hi⟩) = .error e →
          WBConn.nqChunkLogMsg (idx + i) e ∈ (WBConn.normqueryChunksGo call idx chunks).2 := by
  intro chunks
  induction chunks with
  | nil =>
    intro idx
    refine ⟨rfl, ?_⟩
    intro i hi
    simp at hi
  | cons c cs ih =>
    intro idx
    obtain ⟨ih1, ih2⟩ := ih (idx + 1)
    constructor
    · cases hcall : call c with
      | error e =>
        rw [WBConn.normqueryChunksGo_cons_error call idx c cs e hcall]
        simp only [List.map_cons, List.flatten_cons, hcall, ih1, List.nil_append]
      | ok recs =>
        rw [WBConn.normqueryChunksGo_cons_ok call idx c cs recs hcall]
        simp only [List.map_cons, List.flatten_cons, hcall, ih1]
    · intro i hi e he
      cases i with
      | zero =>
        simp only [List.get] at he
        rw [WBConn.normqueryChunksGo_cons_error call idx c cs e he]
        simp
      | succ j =>
        simp only [List.get] at he
        have hj : j < cs.length := by simpa using hi
        have hmem := ih2 j hj e he
        have hidx : idx + (j + 1) = (idx + 1) + j := by omega
        rw [hidx]
        cases hcall : call c with
        | error e2 =>
          rw [WBConn.normqueryChunksGo_cons_error call idx c cs e2 hcall]
          exact List.mem_cons_of_mem _ hmem
        | ok recs =>
          rw [WBConn.normqueryChunksGo_cons_ok call idx c cs recs hcall]
          exact hmem

/-- C3 counterexample: `fetch_normquery_stats_chunked` over two
single-item chunks whose second chunk call fails with an HTTP 500 —
instead of re-raising, the loop logs the failure and RETURNS the partial
accumulation `[101]` collected from the successful first chunk (its
result type carries no exception at all), refuting "the chunked fetch
never returns a partial accumulation" for this chunked-key fetch. -/
theorem chunked_failure_ce :
    WBConn.fetch_normquery_stats_chunked Fixtures.nqCallCE [(1, 11), (2, 22)] 1 =
      ([101], ["Failed to fetch normquery stats chunk 2: 500 Server Error"]) ∧
    Fixtures.nqCallCE [(2, 22)] = .error ⟨.httpStatusError, "500 Server Error"⟩ ∧
    WBConn.fetch_fullstats_chunked Fixtures.fsCallCE [1, 2] 1 =
      .error ⟨.httpError, "boom"⟩ := by
  refine ⟨by decide, by decide, by decide⟩

/-- C3 amended: chunk-call failure handling differs between the two
chunked-key fetch loops.  `fetch_fullstats_chunked` logs and re-raises —
the first failing chunk's exception propagates and no partial result is
returned; `fetch_normquery_stats_chunked` catches every chunk failure,
logs it (with the chunk's 1-based index), and continues, returning the
accumulation of the successful chunks' results. -/
theorem chunked_failure_handling
    (call_f : List Int → Except Exc (List Nat))
    (call_n : List (Int × Int) → Except Exc (List Nat))
    (ids : List Int) (items : List (Int × Int)) (size : Nat)
    (pre : List (List Int)) (c : List Int) (post : List (List Int)) (e : Exc)
    (i : Nat) (e2 : Exc)
    (hne : ids ≠ [])
    (hsplit : WBConn.chunked ids size = pre ++ c :: post)
    (hpre : ∀ c2 ∈ pre, ∃ r, call_f c2 = .ok r)
    (hc : call_f c = .error e)
    (hitems : items ≠ [])
    (hi : i < (WBConn.chunked items size).length)
    (hcn : call_n ((WBConn.chunked items size).get ⟨i, hi⟩) = .error e2) :
    WBConn.fetch_fullstats_chunked call_f ids size = .error e ∧
    (WBConn.fetch_normquery_stats_chunked call_n items size).1 =
      ((WBConn.chunked items size).map
        (fun ch => match call_n ch with | .ok r => r | .error _ => [])).flatten ∧
    WBConn.nqChunkLogMsg (1 + i) e2 ∈
      (WBConn.fetch_normquery_stats_chunked call_n items size).2 := by
  obtain ⟨hspec1, hspec2⟩ := WBConn.normqueryChunksGo_spec call_n (WBConn.chunked items size) 1
  refine ⟨?_, ?_, ?_⟩
  · unfold WBConn.fetch_fullstats_chunked
    rw [if_neg hne, hsplit]
    exact WBConn.fullstatsChunksGo_error call_f pre c post e hpre hc
  · unfold WBConn.fetch_normquery_stats_chunked
    rw [if_neg hitems]
    exact hspec1
  · unfold WBConn.fetch_normquery_stats_chunked
    rw [if_neg hitems]
    exact hspec2 i hi e2 hcn

/-- Witness for the amended C3 at concrete inputs: fullstats over chunks
`[[1], [2]]` with `[2]` failing propagates the error; normquery over
chunks `[[(1,11)], [(2,22)]]` with the second failing returns the first
chunk's records and logs the second. -/
theorem chunked_failure_handling_witness :
    WBConn.fetch_fullstats_chunked Fixtures.fsCallCE [1, 2] 1 =
      .error ⟨.httpError, "boom"⟩ ∧
    (WBConn.fetch_normquery_stats_chunked Fixtures.nqCallCE [(1, 11), (2, 22)] 1).1 =
      ((WBConn.chunked [(1, 11), (2, 22)] 1).map
        (fun ch => match Fixtures.nqCallCE ch with | .ok r => r | .error _ => [])).flatten ∧
    WBConn.nqChunkLogMsg (1 + 1) ⟨.httpStatusError, "500 Server Error"⟩ ∈
      (WBConn.fetch_normquery_stats_chunked Fixtures.nqCallCE [(1, 11), (2, 22)] 1).2 :=
  chunked_failure_handling Fixtures.fsCallCE Fixtures.nqCallCE
    [1, 2] [(1, 11), (2, 22)] 1 [[1]] [2] [] ⟨.httpError, "boom"⟩
    1 ⟨.httpStatusError, "500 Server Error"⟩
    (by decide) (by decide)
    (by
      intro c2 h2
      simp only [List.mem_singleton] at h2
      subst h2
      exact ⟨[7], by decide⟩)
    (by decide) (by decide) (by decide) (by decide)

/-! ## Offset-cursor pagination (C4) -/

/-- General pagination lemma, parameterized by the index `j` of the page
the loop is about to request: if the next `k - 1` pages are full
(exactly `limit` items) and the page after them is short, the loop makes
exactly `k` further calls at offsets `j*limit, (j+1)*limit, ...` and
returns the concatenation of those pages. -/
theorem WBConn.fetchPagesAux_spec (source : Nat → List α) (limit : Nat) (hlim : 0 < limit) :
    ∀ (k : Nat), 1 ≤ k → ∀ (j fuel : Nat), k ≤ fuel →
      (∀ i, i < k - 1 → (source ((j + i) * limit)).length = limit) →
      (source ((j + k - 1) * limit)).length < limit →
      WBConn.fetchPagesAux source limit fuel (j * limit) =
        some (((List.range k).map (fun i => source ((j + i) * limit))).flatten,
              (List.range k).map (fun i => (j + i) * limit)) := by
  intro k
  induction k with
  | zero => omega
  | succ m ih =>
    intro _ j fuel hfuel hfull hlast
    cases fuel with
    | zero => omega
    | succ f =>
      cases m with
      | zero =>
        have hlast2 : (source (j * limit)).length < limit := by simpa using hlast
        simp only [WBConn.fetchPagesAux]
        by_cases hemp : (source (j * limit)).isEmpty = true
        · rw [if_pos hemp]
          have hnil : source (j * limit) = [] := by rwa [List.isEmpty_iff] at hemp
          have hr1 : List.range 1 = [0] := by decide
          simp [hr1, hnil]
        · rw [if_neg hemp, if_pos hlast2]
          have hr1 : List.range 1 = [0] := by decide
          simp [hr1]
      | succ m2 =>
        have hfull0 : (source (j * limit)).length = limit := by
          have h := hfull 0 (by omega)
          simpa using h
        have hA : ¬((source (j * limit)).isEmpty = true) := by
          intro h
          rw [List.isEmpty_iff] at h
          rw [h] at hfull0
          simp at hfull0
          omega
        have hB : ¬((source (j * limit)).length < limit) := by omega
        simp only [WBConn.fetchPagesAux]
        rw [if_neg hA, if_neg hB]
        have hoff : j * limit + limit = (j + 1) * limit := by ring
        rw [hoff]
        have ihr := ih (by omega) (j + 1) f (by omega)
          (fun i hi => by
            have h := hfull (i + 1) (by omega)
            have he : j + (i + 1) = (j + 1) + i := by omega
            rwa [he] at h)
          (by
            have he : j + (m2 + 1 + 1) - 1 = (j + 1) + (m2 + 1) - 1 := by omega
            rwa [he] at hlast)
        rw [ihr]
        have hrs : List.range (m2 + 1 + 1) = 0 :: (List.range (m2 + 1)).map Nat.succ :=
          List.range_succ_eq_map (m2 + 1)
        rw [hrs]
        simp only [List.map_cons, List.flatten_cons, List.map_map, Nat.add_zero,
          Option.some.injEq, Prod.mk.injEq]
        constructor
        · congr 1
          apply congrArg
          apply List.map_congr_left
          intro i _
          simp only [Function.comp_apply]
          have he : j + Nat.succ i = j + 1 + i := by omega
          rw [he]
        · congr 1
          apply List.map_congr_left
          intro i _
          simp only [Function.comp_apply]
          have he : j + Nat.succ i = j + 1 + i := by omega
          rw [he]

/-- C4: if the page source serves `k - 1` full pages (exactly `limit`
items each) followed by one short page, the offset-cursor fetch loop
issues exactly `k` calls at offsets `0, limit, 2*limit, ...`, returns the
concatenation of all returned pages, and stops.  (In
`fetch_search_report_all` this loop runs with `limit = 1000`; for pages
of sizes `limit, limit, limit - 1` it makes 3 calls and returns
`3*limit - 1` items.) -/
theorem pagination_correct (source : Nat → List α) (limit k fuel : Nat)
    (hlim : 0 < limit) (hk : 1 ≤ k) (hfuel : k ≤ fuel)
    (hfull : ∀ i, i < k - 1 → (source (i * limit)).length = limit)
    (hlast : (source ((k - 1) * limit)).length < limit) :
    WBConn.fetchPagesAux source limit fuel 0 =
      some (((List.range k).map (fun i => source (i * limit))).flatten,
            (List.range k).map (fun i => i * limit)) := by
  have h := WBConn.fetchPagesAux_spec source limit hlim k hk 0 fuel hfuel
    (by intro i hi; simpa using hfull i hi)
    (by simpa using hlast)
  simpa using h

/-- Witness for C4: pages of sizes 2, 2, 1 with `limit = 2` — exactly 3
calls at offsets 0, 2, 4 and all 5 = 3*2 - 1 items returned in order. -/
theorem pagination_correct_witness :
    WBConn.fetchPagesAux Fixtures.pageSourceW 2 5 0 =
      some (((List.range 3).map (fun i => Fixtures.pageSourceW (i * 2))).flatten,
            (List.range 3).map (fun i => i * 2)) :=
  pagination_correct Fixtures.pageSourceW 2 3 5 (by decide) (by decide) (by decide)
    (by decide) (by decide)

/-! ## Async-report polling (C5, C9) -/

/-- If no status call ever returns a terminal state, the poll loop runs
until the first deadline check that fails — the check at iteration
`maxWait / pollInterval + 1` — and raises the timeout error there. -/
theorem Ozon.pollReportAux_timeout (status : Nat → String)
    (maxWait pollInterval : Nat) (uuid : String)
    (hPI : 0 < pollInterval)
    (hnt : ∀ m, status m ≠ "OK" ∧ status m ≠ "ERROR" ∧ status m ≠ "FAILED") :
    ∀ (fuel n : Nat), n ≤ maxWait / pollInterval + 1 →
      maxWait / pollInterval + 2 - n ≤ fuel →
      Ozon.pollReportAux status maxWait pollInterval uuid fuel n =
        some (.error (Ozon.reportTimeoutError uuid maxWait),
          maxWait / pollInterval + 1) := by
  intro fuel
  induction fuel with
  | zero =>
    intro n h1 h2
    omega
  | succ f ih =>
    intro n h1 h2
    simp only [Ozon.pollReportAux]
    by_cases hto : n * pollInterval > maxWait
    · have hn : n = maxWait / pollInterval + 1 := by
        have hle : maxWait / pollInterval * pollInterval ≤ maxWait :=
          Nat.div_mul_le_self _ _
        by_contra hne
        have hn2 : n ≤ maxWait / pollInterval := by omega
        have := Nat.mul_le_mul_right pollInterval hn2
        omega
      rw [if_pos hto, hn]
    · obtain ⟨h1n, h2n, h3n⟩ := hnt n
      rw [if_neg hto, if_neg h1n, if_neg (by
        intro h
        rcases h with h | h
        · exact h2n h
        · exact h3n h)]
      apply ih
      · have := (Nat.le_div_iff_mul_le hPI).mpr (show n * pollInterval ≤ maxWait by omega)
        omega
      · omega

/-- C9: with a poll oracle that never reaches a terminal state and a
positive poll interval, the async report fetch terminates by raising the
timeout error at the first deadline check after `max_wait_seconds` have
elapsed — at elapsed time `(maxWait/pollInterval + 1) * pollInterval`,
which is strictly greater than `maxWait` but at most
`maxWait + pollInterval` (for `maxWait = 5`, `pollInterval = 1`: raised
at 6 elapsed seconds, within the 5–6 second window), and at no earlier
check (every earlier check sees elapsed time at most `maxWait`). -/
theorem report_poll_times_out (status : Nat → String) (uuid : String)
    (maxWait pollInterval fuel : Nat)
    (hPI : 0 < pollInterval)
    (hnt : ∀ m, status m ≠ "OK" ∧ status m ≠ "ERROR" ∧ status m ≠ "FAILED")
    (hfuel : maxWait / pollInterval + 2 ≤ fuel) :
    Ozon.pollReport status maxWait pollInterval uuid fuel =
      some (.error (Ozon.reportTimeoutError uuid maxWait),
        maxWait / pollInterval + 1) ∧
    maxWait < (maxWait / pollInterval + 1) * pollInterval ∧
    (maxWait / pollInterval + 1) * pollInterval ≤ maxWait + pollInterval ∧
    (∀ m, m ≤ maxWait / pollInterval → m * pollInterval ≤ maxWait) := by
  have hle : maxWait / pollInterval * pollInterval ≤ maxWait :=
    Nat.div_mul_le_self _ _
  refine ⟨?_, ?_, ?_, ?_⟩
  · have harg2 : maxWait / pollInterval + 2 - 0 ≤ fuel := by omega
    exact Ozon.pollReportAux_timeout status maxWait pollInterval uuid hPI hnt
      fuel 0 (Nat.zero_le _) harg2
  · have hdm := Nat.div_add_mod maxWait pollInterval
    have hmod : maxWait % pollInterval < pollInterval := Nat.mod_lt _ hPI
    have hmul : (maxWait / pollInterval + 1) * pollInterval
        = pollInterval * (maxWait / pollInterval) + pollInterval := by ring
    omega
  · have hmul : (maxWait / pollInterval + 1) * pollInterval
        = maxWait / pollInterval * pollInterval + pollInterval := by ring
    omega
  · intro m hm
    have := Nat.mul_le_mul_right pollInterval hm
    omega

/-- Witness for C9: `maxWaitSeconds = 5`, `pollIntervalSeconds = 1`, an
always-pending status — the loop raises the timeout at its 7th deadline
check, i.e. after 6 elapsed seconds. -/
theorem report_poll_times_out_witness :
    Ozon.pollReport Fixtures.pendingStatus 5 1 "r1" 10 =
      some (.error (Ozon.reportTimeoutError "r1" 5), 5 / 1 + 1) ∧
    5 < (5 / 1 + 1) * 1 ∧
    (5 / 1 + 1) * 1 ≤ 5 + 1 ∧
    (∀ m, m ≤ 5 / 1 → m * 1 ≤ 5) :=
  report_poll_times_out Fixtures.pendingStatus "r1" 5 1 10 (by decide)
    (fun m =>
      ⟨show "PENDING" ≠ "OK" by decide,
       show "PENDING" ≠ "ERROR" by decide,
       show "PENDING" ≠ "FAILED" by decide⟩)
    (by decide)

/-- C5 counterexample: at a concrete report, the exception raised when
the polling deadline is exceeded and the exception raised when the
remote job reports `"ERROR"` have the SAME exception class
(`OzonConnectorError`) — a caller catching by exception type cannot
distinguish the two outcomes; only the message text differs. -/
theorem timeout_error_class_ce :
    Ozon.pollReport Fixtures.pendingStatus 5 1 "r1" 10 =
      some (.error (Ozon.reportTimeoutError "r1" 5), 6) ∧
    Ozon.pollReport Fixtures.errorStatus 5 1 "r1" 10 =
      some (.error (Ozon.reportFailedError "r1" "ERROR"), 0) ∧
    (Ozon.reportTimeoutError "r1" 5).ty = (Ozon.reportFailedError "r1" "ERROR").ty := by
  refine ⟨by decide, by decide, rfl⟩

/-- C5 amended: exceeding the polling deadline and an API-reported
ERROR/FAILED state both raise the same exception class,
`OzonConnectorError`; the two outcomes are distinguishable only by the
exception's message text, which does always differ (the timeout message
continues with " timeout after", the failure message with
" failed with state: "). -/
theorem timeout_distinct_by_message (uuid state : String) (maxWait : Nat) :
    (Ozon.reportTimeoutError uuid maxWait).ty = ExcTy.ozonConnectorError ∧
    (Ozon.reportFailedError uuid state).ty = ExcTy.ozonConnectorError ∧
    (Ozon.reportTimeoutError uuid maxWait).msg ≠ (Ozon.reportFailedError uuid state).msg := by
  refine ⟨rfl, rfl, ?_⟩
  intro h
  simp only [Ozon.reportTimeoutError, Ozon.reportFailedError] at h
  have h2 := congrArg String.data h
  simp only [String.data_append] at h2
  have h3 := List.append_cancel_left h2
  have h4 := List.append_cancel_left h3
  simp at h4

/-! ## Chunk-size contract enforcement (C6) -/

/-- C6: a key list longer than the endpoint's declared per-request
maximum (50 nm_ids for product search texts, 100 items for normquery
stats) makes the single-request fetch raise `WBConnectorError` before
any network request exists; and whenever a request IS produced, it
carries the full input key list — never a truncation. -/
theorem chunk_limit_enforced (nm_ids : List Int) (items : List (Int × Int))
    (start endDate dateStart dateEnd tob obf obm : String) (lim : Int)
    (h50 : nm_ids.length > 50) (h100 : items.length > 100) :
    WBConn.fetch_product_search_texts nm_ids start endDate tob obf obm lim =
      .error ⟨.wbConnectorError, "fetch_product_search_texts: max 50 nmIds per request"⟩ ∧
    WBConn.fetch_normquery_stats items dateStart dateEnd =
      .error ⟨.wbConnectorError, "fetch_normquery_stats: max 100 items per request"⟩ ∧
    (∀ (ids2 : List Int) r,
      WBConn.fetch_product_search_texts ids2 start endDate tob obf obm lim = .ok r →
        r.nmIds = ids2) ∧
    (∀ (its2 : List (Int × Int)) r,
      WBConn.fetch_normquery_stats its2 dateStart dateEnd = .ok (some r) →
        r.items = its2) := by
  refine ⟨?_, ?_, ?_, ?_⟩
  · unfold WBConn.fetch_product_search_texts
    rw [if_pos h50]
  · have hne : items ≠ [] := by
      intro h
      rw [h] at h100
      simp at h100
    unfold WBConn.fetch_normquery_stats
    rw [if_neg hne, if_pos h100]
  · intro ids2 r hr
    unfold WBConn.fetch_product_search_texts at hr
    by_cases h : ids2.length > 50
    · rw [if_pos h] at hr
      cases hr
    · rw [if_neg h] at hr
      cases hr
      rfl
  · intro its2 r hr
    unfold WBConn.fetch_normquery_stats at hr
    by_cases he : its2 = []
    · rw [if_pos he] at hr
      cases hr
    · rw [if_neg he] at hr
      by_cases h : its2.length > 100
      · rw [if_pos h] at hr
        cases hr
      · rw [if_neg h] at hr
        cases hr
        rfl

/-- Witness for C6: 51 nm_ids and 101 normquery items, both over the
declared limits. -/
theorem chunk_limit_enforced_witness :
    WBConn.fetch_product_search_texts ((List.range 51).map Int.ofNat)
        "2025-01-01" "2025-01-07" "openToCart" "avgPosition" "asc" 30 =
      .error ⟨.wbConnectorError, "fetch_product_search_texts: max 50 nmIds per request"⟩ ∧
    WBConn.fetch_normquery_stats
        ((List.range 101).map (fun i => (Int.ofNat i, Int.ofNat i)))
        "2025-01-01" "2025-01-07" =
      .error ⟨.wbConnectorError, "fetch_normquery_stats: max 100 items per request"⟩ ∧
    (∀ (ids2 : List Int) r,
      WBConn.fetch_product_search_texts ids2 "2025-01-01" "2025-01-07"
          "openToCart" "avgPosition" "asc" 30 = .ok r →
        r.nmIds = ids2) ∧
    (∀ (its2 : List (Int × Int)) r,
      WBConn.fetch_normquery_stats its2 "2025-01-01" "2025-01-07" = .ok (some r) →
        r.items = its2) :=
  chunk_limit_enforced ((List.range 51).map Int.ofNat)
    ((List.range 101).map (fun i => (Int.ofNat i, Int.ofNat i)))
    "2025-01-01" "2025-01-07" "2025-01-01" "2025-01-07"
    "openToCart" "avgPosition" "asc" 30
    (by simp) (by simp)

/-! ## Retry policy (C7, C10) -/

/-- If the next `r` attempts raise declared exceptions and the attempt
after them succeeds (with `r` strictly below the remaining attempt
budget), the retry loop returns the success and sleeps exactly `r`
growing delays. -/
theorem Retry.retryAux_succeeds (declared : Exc → Bool) (backoff : ℚ)
    (call : Nat → Except Exc α) :
    ∀ (r attempt : Nat) (curD : ℚ) (remaining : Nat) (a : α),
      r < remaining →
      (∀ j, attempt ≤ j → j < attempt + r → ∃ e, call j = .error e ∧ declared e = true) →
      call (attempt + r) = .ok a →
      Retry.retryAux declared backoff call remaining attempt curD =
        ⟨.success a, (List.range r).map (fun j => curD * backoff ^ j), false⟩ := by
  intro r
  induction r with
  | zero =>
    intro attempt curD remaining a hr hfail hok
    cases remaining with
    | zero => omega
    | succ rem =>
      simp only [Retry.retryAux]
      simp only [Nat.add_zero] at hok
      rw [hok]
      simp
  | succ m ih =>
    intro attempt curD remaining a hr hfail hok
    cases remaining with
    | zero => omega
    | succ rem =>
      obtain ⟨e, he, hde⟩ := hfail attempt (le_refl _) (by omega)
      simp only [Retry.retryAux]
      rw [he]
      simp only [hde, if_true]
      have hrem : rem ≠ 0 := by omega
      rw [if_neg hrem]
      have ihr := ih (attempt + 1) (curD * backoff) rem a (by omega)
        (fun j hj1 hj2 => hfail j (by omega) (by omega))
        (by
          have he2 : attempt + 1 + m = attempt + (m + 1) := by omega
          rwa [he2])
      rw [ihr]
      simp only [List.range_succ_eq_map, List.map_cons, List.map_map, pow_zero, mul_one]
      have hmap : List.map (fun j => curD * backoff * backoff ^ j) (List.range m)
          = List.map ((fun j => curD * backoff ^ j) ∘ Nat.succ) (List.range m) := by
        apply List.map_congr_left
        intro i _
        simp only [Function.comp_apply]
        rw [pow_succ]
        ring
      rw [hmap]

/-- If every attempt of the remaining budget raises a declared
exception, the loop re-raises the last error after logging it, having
slept `remaining - 1` growing delays. -/
theorem Retry.retryAux_exhausts (declared : Exc → Bool) (backoff : ℚ)
    (call : Nat → Except Exc α) (errs : Nat → Exc) :
    ∀ (remaining attempt : Nat) (curD : ℚ),
      1 ≤ remaining →
      (∀ j, attempt ≤ j → j < attempt + remaining →
        call j = .error (errs j) ∧ declared (errs j) = true) →
      Retry.retryAux declared backoff call remaining attempt curD =
        ⟨.raised (errs (attempt + remaining - 1)),
         (List.range (remaining - 1)).map (fun j => curD * backoff ^ j), true⟩ := by
  intro remaining
  induction remaining with
  | zero => omega
  | succ rem ih =>
    intro attempt curD _ hfail
    obtain ⟨he, hde⟩ := hfail attempt (le_refl _) (by omega)
    simp only [Retry.retryAux]
    rw [he]
    simp only [hde, if_true]
    cases rem with
    | zero =>
      simp
    | succ rem2 =>
      rw [if_neg (by omega)]
      have ihr := ih (attempt + 1) (curD * backoff) (by omega)
        (fun j hj1 hj2 => hfail j (by omega) (by omega))
      rw [ihr]
      have hidx : attempt + 1 + (rem2 + 1) - 1 = attempt + (rem2 + 1 + 1) - 1 := by omega
      rw [hidx]
      simp only [Nat.add_sub_cancel]
      simp only [List.range_succ_eq_map, List.map_cons, List.map_map]
      congr 2
      · rw [pow_zero, mul_one]
      · apply List.map_congr_left
        intro i _
        simp only [Function.comp_apply]
        rw [pow_succ]
        ring

/-- C7: the retry policy of `retry_on_exception` with `max_retries = N ≥ 1`.
If the wrapped call raises a declared exception on its first `k - 1`
attempts (`1 ≤ k ≤ N`) and succeeds on attempt `k`, the wrapper returns
the success result, with exactly `k - 1` logged retry warnings, sleeping
`delay * backoff_factor ^ (attempt - 1)` before each retry (the j-th
sleep, 0-based, is `delay * backoff ^ j`).  If all `N` attempts raise
declared exceptions, the wrapper logs the attempt count and re-raises
the last error, after `N - 1` such sleeps. -/
theorem retry_policy_correct (declared : Exc → Bool) (N : Int)
    (delay backoff : ℚ) (call : Nat → Except Exc α) (k : Nat) (a : α)
    (errs : Nat → Exc) (hN : 1 ≤ N) (hk : 1 ≤ k) (hkN : (k : Int) ≤ N) :
    ((∀ j, j < k - 1 → call j = .error (errs j) ∧ declared (errs j) = true) →
      call (k - 1) = .ok a →
      Retry.retry_on_exception declared N delay backoff call =
        ⟨.success a, (List.range (k - 1)).map (fun j => delay * backoff ^ j), false⟩) ∧
    ((∀ j, j < N.toNat → call j = .error (errs j) ∧ declared (errs j) = true) →
      Retry.retry_on_exception declared N delay backoff call =
        ⟨.raised (errs (N.toNat - 1)),
         (List.range (N.toNat - 1)).map (fun j => delay * backoff ^ j), true⟩) := by
  constructor
  · intro hfail hok
    unfold Retry.retry_on_exception
    have h := Retry.retryAux_succeeds declared backoff call (k - 1) 0 delay N.toNat a
      (by omega)
      (fun j hj1 hj2 => by
        obtain ⟨hc, hd⟩ := hfail j (by omega)
        exact ⟨errs j, hc, hd⟩)
      (by simpa using hok)
    exact h
  · intro hfail
    unfold Retry.retry_on_exception
    have h := Retry.retryAux_exhausts declared backoff call errs N.toNat 0 delay
      (by omega)
      (fun j hj1 hj2 => hfail j (by omega))
    simpa using h

/-- Witness for C7: `N = 3`, a call failing twice with a declared HTTP
error and succeeding on the third attempt, `delay = 5`, `backoff = 2` —
the wrapper returns 42 after sleeping 5 then 10 (two retry warnings). -/
theorem retry_policy_correct_witness :
    ((∀ j, j < 3 - 1 →
        Fixtures.retryCallCE j = .error ⟨.httpError, "conn reset"⟩ ∧
        Exc.isHttpError ⟨.httpError, "conn reset"⟩ = true) →
      Fixtures.retryCallCE (3 - 1) = .ok 42 →
      Retry.retry_on_exception Exc.isHttpError 3 5 2 Fixtures.retryCallCE =
        ⟨.success 42, (List.range (3 - 1)).map (fun j => 5 * 2 ^ j), false⟩) ∧
    ((∀ j, j < (3 : Int).toNat →
        Fixtures.retryCallCE j = .error ⟨.httpError, "conn reset"⟩ ∧
        Exc.isHttpError ⟨.httpError, "conn reset"⟩ = true) →
      Retry.retry_on_exception Exc.isHttpError 3 5 2 Fixtures.retryCallCE =
        ⟨.raised ((fun _ => (⟨.httpError, "conn reset"⟩ : Exc)) ((3 : Int).toNat - 1)),
         (List.range ((3 : Int).toNat - 1)).map (fun j => 5 * 2 ^ j), true⟩) :=
  retry_policy_correct Exc.isHttpError 3 5 2 Fixtures.retryCallCE 3 42
    (fun _ => ⟨.httpError, "conn reset"⟩) (by decide) (by decide) (by decide)

/-- C10: with `max_retries <= 0` the `while` loop of the wrapper never
runs: the wrapped function is never invoked (the trace is the same for
every wrapped function) and the wrapper returns Python's implicit `None`
— neither a result nor an error. -/
theorem retry_zero_attempts (declared : Exc → Bool) (N : Int)
    (delay backoff : ℚ) (call call2 : Nat → Except Exc α) (hN : N ≤ 0) :
    Retry.retry_on_exception declared N delay backoff call =
      ⟨.returnedNone, [], false⟩ ∧
    Retry.retry_on_exception declared N delay backoff call =
      Retry.retry_on_exception declared N delay backoff call2 := by
  have h0 : N.toNat = 0 := by omega
  unfold Retry.retry_on_exception
  rw [h0]
  exact ⟨rfl, rfl⟩

/-- Witness for C10: `max_retries = -1` (and `0` behaves the same), a
call that would succeed immediately is never invoked; the wrapper
returns `None`. -/
theorem retry_zero_attempts_witness :
    Retry.retry_on_exception Exc.isHttpError (-1) 5 2 Fixtures.retryCallCE =
      ⟨.returnedNone, [], false⟩ ∧
    Retry.retry_on_exception Exc.isHttpError (-1) 5 2 Fixtures.retryCallCE =
      Retry.retry_on_exception Exc.isHttpError (-1) 5 2 (fun _ => .ok 0) :=
  retry_zero_attempts Exc.isHttpError (-1) 5 2 Fixtures.retryCallCE
    (fun _ => .ok 0) (by decide)

/-! ## Per-day failure isolation (C8) -/

/-- Full characterization of the per-day loop over the window
`[cur, stop]` (as long as the fuel covers the window): upserts are the
days whose iteration succeeded with a non-empty frame, error-days are
the days whose iteration raised, and the record counter sums the
successful days' record counts. -/
theorem Etl.runDayLoop_spec (dayResult : Nat → Except Exc (List Nat)) (stop : Nat) :
    ∀ (fuel cur : Nat), stop + 1 - cur ≤ fuel →
      Etl.runDayLoop dayResult stop fuel cur =
        ⟨(List.range' cur (stop + 1 - cur)).filterMap
            (fun d => match dayResult d with
              | .ok r => if r.isEmpty then none else some (d, r)
              | .error _ => none),
         (List.range' cur (stop + 1 - cur)).filter (fun d => Etl.isErr (dayResult d)),
         ((List.range' cur (stop + 1 - cur)).map
            (fun d => match dayResult d with
              | .ok r => r.length
              | .error _ => 0)).sum⟩ := by
  intro fuel
  induction fuel with
  | zero =>
    intro cur hf
    have h0 : stop + 1 - cur = 0 := by omega
    rw [h0]
    rfl
  | succ f ih =>
    intro cur hf
    by_cases hc : cur ≤ stop
    · have hn : stop + 1 - cur = (stop - cur) + 1 := by omega
      have hn2 : stop + 1 - (cur + 1) = stop - cur := by omega
      have ihr := ih (cur + 1) (by omega)
      rw [hn2] at ihr
      simp only [Etl.runDayLoop]
      rw [if_pos hc, ihr, hn, List.range'_succ]
      cases hday : dayResult cur with
      | ok recs =>
        by_cases hemp : recs.isEmpty = true
        · have hnil : recs = [] := by rwa [List.isEmpty_iff] at hemp
          subst hnil
          simp [hday, Etl.isErr]
        · have hnnil : recs ≠ [] := by
            intro h
            subst h
            simp at hemp
          simp [hday, hemp, hnnil, Etl.isErr]
      | error e2 =>
        simp [hday, Etl.isErr]
    · have h0 : stop + 1 - cur = 0 := by omega
      rw [h0]
      simp only [Etl.runDayLoop]
      rw [if_neg hc]
      rfl

/-- A filter over a duplicate-free list whose predicate holds exactly at
one member `d` returns `[d]`. -/
theorem list_filter_eq_single {l : List Nat} {p : Nat → Bool} {d : Nat}
    (hd : d ∈ l) (hnd : l.Nodup)
    (hp : ∀ j ∈ l, (p j = true ↔ j = d)) :
    l.filter p = [d] := by
  induction l with
  | nil => cases hd
  | cons a t ih =>
    have hand := List.nodup_cons.mp hnd
    by_cases had : a = d
    · subst had
      have hpa : p a = true := (hp a (List.mem_cons_self a t)).mpr rfl
      rw [List.filter_cons_of_pos hpa]
      have ht : t.filter p = [] := by
        rw [List.filter_eq_nil_iff]
        intro j hj hpj
        have hja := (hp j (List.mem_cons_of_mem a hj)).mp hpj
        subst hja
        exact hand.1 hj
      rw [ht]
    · have hmem : d ∈ t := by
        rcases List.mem_cons.mp hd with h | h
        · exact absurd h.symm had
        · exact h
      have ha : ¬(p a = true) := by
        intro hpa
        exact had ((hp a (List.mem_cons_self a t)).mp hpa)
      rw [List.filter_cons_of_neg ha]
      exact ih hmem hand.2 (fun j hj => hp j (List.mem_cons_of_mem a hj))

/-- A `filterMap` that drops exactly the element `d` and maps the rest
through `f` is a filter followed by a map. -/
theorem list_filterMap_drop_one {l : List Nat}
    {g : Nat → Option (Nat × List Nat)} {d : Nat} {f : Nat → Nat × List Nat}
    (hg : ∀ j ∈ l, g j = if j = d then none else some (f j)) :
    l.filterMap g = (l.filter (fun j => decide (j ≠ d))).map f := by
  induction l with
  | nil => rfl
  | cons a t ih =>
    have hga := hg a (List.mem_cons_self a t)
    have iht := ih (fun j hj => hg j (List.mem_cons_of_mem a hj))
    rw [List.filterMap_cons, hga]
    by_cases had : a = d
    · subst had
      simp only [if_pos rfl, List.filter_cons]
      simp [iht]
    · simp only [if_neg had, List.filter_cons]
      simp [had, iht]

/-- C8: in the per-day pipeline loop over `[a, b]`, a day `d` whose
iteration raises is caught at that iteration's boundary and logged as
the window's only error day, and every other day of the window is still
processed and upserted with its records — the loop never aborts.  The
SPP pipeline's loop behaves identically. -/
theorem day_loop_failure_isolation (dayResult : Nat → Except Exc (List Nat))
    (a b d : Nat) (e : Exc) (recs : Nat → List Nat)
    (had : a ≤ d) (hdb : d ≤ b)
    (hfail : dayResult d = .error e)
    (hok : ∀ j, j < b + 1 → a ≤ j → j ≠ d →
      dayResult j = .ok (recs j) ∧ (recs j).isEmpty = false) :
    (Etl.run_sales_funnel_pipeline dayResult a b).errorDays = [d] ∧
    (Etl.run_sales_funnel_pipeline dayResult a b).upserts =
      ((List.range' a (b + 1 - a)).filter (fun j => decide (j ≠ d))).map
        (fun j => (j, recs j)) ∧
    Etl.run_spp_pipeline dayResult a b = Etl.run_sales_funnel_pipeline dayResult a b := by
  have hspec := Etl.runDayLoop_spec dayResult b (b + 1 - a) a (le_refl _)
  have hmem : ∀ j, j ∈ List.range' a (b + 1 - a) ↔ (a ≤ j ∧ j < b + 1) := by
    intro j
    rw [List.mem_range'_1]
    omega
  refine ⟨?_, ?_, rfl⟩
  · unfold Etl.run_sales_funnel_pipeline
    rw [hspec]
    apply list_filter_eq_single
    · exact (hmem d).mpr ⟨had, by omega⟩
    · exact List.nodup_range' a (b + 1 - a)
    · intro j hj
      obtain ⟨hja, hjb⟩ := (hmem j).mp hj
      constructor
      · intro hpj
        by_contra hne
        obtain ⟨hojk, _⟩ := hok j hjb hja hne
        rw [hojk] at hpj
        simp [Etl.isErr] at hpj
      · intro hjd
        subst hjd
        rw [hfail]
        rfl
  · unfold Etl.run_sales_funnel_pipeline
    rw [hspec]
    apply list_filterMap_drop_one
    intro j hj
    obtain ⟨hja, hjb⟩ := (hmem j).mp hj
    by_cases hjd : j = d
    · subst hjd
      rw [hfail, if_pos rfl]
    · obtain ⟨hojk, hemp⟩ := hok j hjb hja hjd
      rw [hojk, if_neg hjd]
      simp [hemp]

/-- Witness for C8: a 5-day window (days 1..5) whose day 3 raises — the
loop logs exactly day 3 as failed and upserts the records of days
1, 2, 4, 5. -/
theorem day_loop_failure_isolation_witness :
    (Etl.run_sales_funnel_pipeline Fixtures.dayFetchCE 1 5).errorDays = [3] ∧
    (Etl.run_sales_funnel_pipeline Fixtures.dayFetchCE 1 5).upserts =
      ((List.range' 1 (5 + 1 - 1)).filter (fun j => decide (j ≠ 3))).map
        (fun j => (j, [j])) ∧
    Etl.run_spp_pipeline Fixtures.dayFetchCE 1 5 =
      Etl.run_sales_funnel_pipeline Fixtures.dayFetchCE 1 5 :=
  day_loop_failure_isolation Fixtures.dayFetchCE 1 5 3
    ⟨.httpError, "fetch failed"⟩ (fun j => [j])
    (by decide) (by decide) (by decide) (by decide)
